import Mathlib

/-!
Shallow embedding of the NutriSnap daily-nutrition ledger.

Sources embedded here:
* the Dashboard component (daily log handlers, water intake, totals reduce),
* the Progress component (per-day historical rollup),
* the Onboarding component (`calculatedCalorieGoal`),
* the Profile / Onboarding unit-conversion helpers,
* the App component's profile-load effect.

JavaScript numbers are embedded as exact rationals (`ℚ`); integer counters
(water glasses) as `ℤ`.  Absent / `undefined` values are `Option`; the empty
string stands for an absent text field where the code relies on falsiness.
Instants are milliseconds since the Unix epoch (`ℤ`), and an ISO calendar
date is abstracted as its day number (`⌊ms / 86400000⌋`), which determines
the `YYYY-MM-DD` prefix of `Date.prototype.toISOString` exactly.
-/

namespace NutriSnap

/-- One food item's nutrition facts (`MacroData` in `types.ts`). -/
@[ext]
structure MacroData where
  foodName : String
  calories : ℚ
  protein : ℚ
  carbohydrates : ℚ
  fat : ℚ
  sugar : ℚ
deriving Repr, DecidableEq

/-- A log entry (`DailyLogEntry` in `types.ts`): tagged union of a meal
(`LoggedMealItem`) and an exercise (`LoggedExerciseItem`). -/
inductive DailyLogEntry where
  | meal (id : String) (timestamp : String) (items : List MacroData)
  | exercise (id : String) (timestamp : String) (name : String) (caloriesBurned : ℚ)
deriving Repr, DecidableEq

/-- The accumulator shape of the Dashboard totals reduce:
`{ calories, protein, carbohydrates, fat }`. -/
@[ext]
structure DailyTotals where
  calories : ℚ
  protein : ℚ
  carbohydrates : ℚ
  fat : ℚ
deriving Repr, DecidableEq

namespace DailyTotals

def add (a b : DailyTotals) : DailyTotals :=
  ⟨a.calories + b.calories, a.protein + b.protein,
   a.carbohydrates + b.carbohydrates, a.fat + b.fat⟩

instance : Add DailyTotals := ⟨DailyTotals.add⟩

instance : Zero DailyTotals := ⟨⟨0, 0, 0, 0⟩⟩

theorem add_def (a b : DailyTotals) :
    a + b = ⟨a.calories + b.calories, a.protein + b.protein,
      a.carbohydrates + b.carbohydrates, a.fat + b.fat⟩ := rfl

theorem zero_def : (0 : DailyTotals) = ⟨0, 0, 0, 0⟩ := rfl

theorem add_comm' (a b : DailyTotals) : a + b = b + a := by
  simp only [add_def]; ext <;> ring

theorem add_assoc' (a b c : DailyTotals) : a + b + c = a + (b + c) := by
  simp only [add_def]; ext <;> ring

theorem zero_add' (a : DailyTotals) : 0 + a = a := by
  simp only [zero_def, add_def]; ext <;> ring

theorem add_zero' (a : DailyTotals) : a + 0 = a := by
  simp only [zero_def, add_def]; ext <;> ring

end DailyTotals

/-! ### The Dashboard totals reduce (`totals`, Dashboard component)

```js
const totals = dailyLog.reduce((acc, entry) => {
  if (entry.type === 'meal') {
    entry.items.forEach(item => {
        acc.calories += item.calories;
        acc.protein += item.protein;
        acc.carbohydrates += item.carbohydrates;
        acc.fat += item.fat;
    });
  } else if (entry.type === 'exercise') {
      acc.calories -= entry.caloriesBurned;
  }
  return acc;
}, { calories: 0, protein: 0, carbohydrates: 0, fat: 0 });
```
The two reducer lambdas are named `addItem` and `applyEntry`. -/

/-- The inner `forEach` body: accumulate one meal item into the totals. -/
def addItem (acc : DailyTotals) (item : MacroData) : DailyTotals :=
  { acc with
    calories := acc.calories + item.calories
    protein := acc.protein + item.protein
    carbohydrates := acc.carbohydrates + item.carbohydrates
    fat := acc.fat + item.fat }

/-- The outer reducer body: a meal folds all its items in; an exercise
subtracts `caloriesBurned` from the calorie field only. -/
def applyEntry (acc : DailyTotals) : DailyLogEntry → DailyTotals
  | .meal _ _ items => items.foldl addItem acc
  | .exercise _ _ _ caloriesBurned => { acc with calories := acc.calories - caloriesBurned }

/-- `totals` from the Dashboard component: reduce of the day's log starting
from the all-zero accumulator. -/
def computeTotals (dailyLog : List DailyLogEntry) : DailyTotals :=
  dailyLog.foldl applyEntry ⟨0, 0, 0, 0⟩

/-! ### Reference definition (from the spec's words, for the refinement in C1)

"Meal entries contribute their items' sums and Exercise entries subtract
`caloriesBurned` from the calorie total only (exercise never affects macro
grams). Net calories may go negative; no clamping." -/

/-- Spec-side contribution of a single item. -/
def itemTotals (item : MacroData) : DailyTotals :=
  ⟨item.calories, item.protein, item.carbohydrates, item.fat⟩

/-- Spec-side totals of a meal's item list: the componentwise sum. -/
def mealTotals (items : List MacroData) : DailyTotals :=
  (items.map itemTotals).foldr (· + ·) 0

/-- Spec-side contribution of a single entry: a meal contributes the sums of
its items, an exercise contributes `-caloriesBurned` to calories and zero to
every macro. -/
def entryTotals : DailyLogEntry → DailyTotals
  | .meal _ _ items => mealTotals items
  | .exercise _ _ _ caloriesBurned => ⟨-caloriesBurned, 0, 0, 0⟩

/-- Spec-side reference totals: the componentwise sum of every entry's
contribution, with plain (unclamped) rational arithmetic. -/
def refTotals : List DailyLogEntry → DailyTotals
  | [] => 0
  | e :: l => entryTotals e + refTotals l

/-! ### The Progress per-day rollup (`last7DaysData`, Progress component)

Same reduce, but its accumulator object is `{calories, protein, carbs, fat}`
(the third field is spelled `carbs`). -/

/-- The accumulator shape of the Progress per-day reduce. -/
@[ext]
structure ProgressTotals where
  calories : ℚ
  protein : ℚ
  carbs : ℚ
  fat : ℚ
deriving Repr, DecidableEq

/-- Inner `forEach` body of the Progress reduce. -/
def progressAddItem (acc : ProgressTotals) (item : MacroData) : ProgressTotals :=
  { acc with
    calories := acc.calories + item.calories
    protein := acc.protein + item.protein
    carbs := acc.carbs + item.carbohydrates
    fat := acc.fat + item.fat }

/-- Outer reducer body of the Progress reduce. -/
def progressApplyEntry (acc : ProgressTotals) : DailyLogEntry → ProgressTotals
  | .meal _ _ items => items.foldl progressAddItem acc
  | .exercise _ _ _ caloriesBurned => { acc with calories := acc.calories - caloriesBurned }

/-- The per-day totals computed inside `last7DaysData` for one date bucket. -/
def progressDayTotals (dayLog : List DailyLogEntry) : ProgressTotals :=
  dayLog.foldl progressApplyEntry ⟨0, 0, 0, 0⟩

/-- Repackage Dashboard-shaped totals in the Progress accumulator shape. -/
def DailyTotals.toProgress (t : DailyTotals) : ProgressTotals :=
  ⟨t.calories, t.protein, t.carbohydrates, t.fat⟩

/-! ### Fold lemmas relating the two code reduces to `refTotals` -/

theorem foldl_addItem_eq (items : List MacroData) :
    ∀ acc : DailyTotals, items.foldl addItem acc = acc + (items.map itemTotals).foldr (· + ·) 0 := by
  induction items with
  | nil => intro acc; simp [DailyTotals.add_zero']
  | cons x xs ih =>
    intro acc
    simp only [List.foldl_cons, List.map_cons, List.foldr_cons, ih]
    have hx : addItem acc x = acc + itemTotals x := by
      simp [addItem, DailyTotals.add_def, itemTotals]
    rw [hx, DailyTotals.add_assoc']

theorem applyEntry_eq (acc : DailyTotals) (e : DailyLogEntry) :
    applyEntry acc e = acc + entryTotals e := by
  cases e with
  | meal i t items => simpa [applyEntry, entryTotals, mealTotals] using foldl_addItem_eq items acc
  | exercise i t n cb =>
    simp only [applyEntry, entryTotals, DailyTotals.add_def]
    ext <;> ring

theorem foldl_applyEntry_eq (l : List DailyLogEntry) :
    ∀ acc : DailyTotals, l.foldl applyEntry acc = acc + refTotals l := by
  induction l with
  | nil => intro acc; simp [refTotals, DailyTotals.add_zero']
  | cons e l ih =>
    intro acc
    simp only [List.foldl_cons, ih, applyEntry_eq, refTotals]
    rw [DailyTotals.add_assoc']

theorem computeTotals_eq_refTotals (l : List DailyLogEntry) :
    computeTotals l = refTotals l := by
  have h := foldl_applyEntry_eq l ⟨0, 0, 0, 0⟩
  simpa [computeTotals, DailyTotals.zero_add', ← DailyTotals.zero_def] using h

theorem refTotals_append (a b : List DailyLogEntry) :
    refTotals (a ++ b) = refTotals a + refTotals b := by
  induction a with
  | nil => simp [refTotals, DailyTotals.zero_add']
  | cons e a ih => simp [refTotals, ih, DailyTotals.add_assoc']

theorem foldl_progressAddItem_eq (items : List MacroData) :
    ∀ acc : DailyTotals,
      items.foldl progressAddItem acc.toProgress = (items.foldl addItem acc).toProgress := by
  induction items with
  | nil => intro acc; simp
  | cons x xs ih =>
    intro acc
    simp only [List.foldl_cons]
    have hx : progressAddItem acc.toProgress x = (addItem acc x).toProgress := by
      simp [progressAddItem, addItem, DailyTotals.toProgress]
    rw [hx, ih]

theorem progressApplyEntry_eq (acc : DailyTotals) (e : DailyLogEntry) :
    progressApplyEntry acc.toProgress e = (applyEntry acc e).toProgress := by
  cases e with
  | meal i t items => simpa [progressApplyEntry, applyEntry] using foldl_progressAddItem_eq items acc
  | exercise i t n cb => simp [progressApplyEntry, applyEntry, DailyTotals.toProgress]

theorem progressDayTotals_eq (l : List DailyLogEntry) :
    progressDayTotals l = (computeTotals l).toProgress := by
  have h : ∀ acc : DailyTotals,
      l.foldl progressApplyEntry acc.toProgress = (l.foldl applyEntry acc).toProgress := by
    induction l with
    | nil => intro acc; simp
    | cons e l ih =>
      intro acc
      simp only [List.foldl_cons, progressApplyEntry_eq, ih]
  simpa [progressDayTotals, computeTotals, DailyTotals.toProgress] using
    h ⟨0, 0, 0, 0⟩

/-- C1: For every day log, `computeTotals` (the Dashboard reduce) equals the
reference totals — each Meal entry contributes the componentwise sums of its
items' calories and macro grams, each Exercise entry contributes exactly
`-caloriesBurned` to the calorie field and zero to every macro gram, with
plain unclamped rational arithmetic — and the Progress view's per-day rollup
computes the very same totals (modulo its `carbs` field spelling).  The last
conjunct exhibits the absence of clamping: a log holding one exercise entry
alone yields the negative calorie total `-caloriesBurned` exactly. -/
theorem C1_computeTotals_spec (log : List DailyLogEntry) :
    computeTotals log = refTotals log ∧
    progressDayTotals log = (refTotals log).toProgress ∧
    (∀ i t n cb, computeTotals [DailyLogEntry.exercise i t n cb] = ⟨-cb, 0, 0, 0⟩) := by
  refine ⟨computeTotals_eq_refTotals log, ?_, ?_⟩
  · rw [progressDayTotals_eq, computeTotals_eq_refTotals]
  · intro i t n cb
    simp [computeTotals, applyEntry]

/-- C10: `computeTotals` is additive over log concatenation (componentwise,
exact rational arithmetic), and invariant under permutation of the log, so
the newest-first ordering cannot affect the daily totals. -/
theorem C10_computeTotals_additive (l1 l2 : List DailyLogEntry) :
    computeTotals (l1 ++ l2) = computeTotals l1 + computeTotals l2 ∧
    (l1.Perm l2 → computeTotals l1 = computeTotals l2) := by
  constructor
  · simp [computeTotals_eq_refTotals, refTotals_append]
  · intro hperm
    rw [computeTotals_eq_refTotals, computeTotals_eq_refTotals]
    induction hperm with
    | nil => rfl
    | cons x _ ih => simp [refTotals, ih]
    | swap x y l =>
      simp only [refTotals]
      rw [← DailyTotals.add_assoc', ← DailyTotals.add_assoc',
        DailyTotals.add_comm' (entryTotals y) (entryTotals x)]
    | trans _ _ ih1 ih2 => rw [ih1, ih2]

/-- Concrete witness for C10: additivity at a one-meal and a one-exercise
log, and permutation invariance at the two-element swap of those entries. -/
theorem C10_witness :
    computeTotals
        ([DailyLogEntry.meal "m" "08:00"
            [⟨"egg", 155, 13, 1, 11, 1⟩]] ++ [DailyLogEntry.exercise "e" "09:00" "run" 300])
      = computeTotals [DailyLogEntry.meal "m" "08:00" [⟨"egg", 155, 13, 1, 11, 1⟩]]
        + computeTotals [DailyLogEntry.exercise "e" "09:00" "run" 300] ∧
    computeTotals
        [DailyLogEntry.meal "m" "08:00" [⟨"egg", 155, 13, 1, 11, 1⟩],
         DailyLogEntry.exercise "e" "09:00" "run" 300]
      = computeTotals
        [DailyLogEntry.exercise "e" "09:00" "run" 300,
         DailyLogEntry.meal "m" "08:00" [⟨"egg", 155, 13, 1, 11, 1⟩]] := by
  constructor
  · exact (C10_computeTotals_additive
      [DailyLogEntry.meal "m" "08:00" [⟨"egg", 155, 13, 1, 11, 1⟩]]
      [DailyLogEntry.exercise "e" "09:00" "run" 300]).1
  · exact (C10_computeTotals_additive
      [DailyLogEntry.meal "m" "08:00" [⟨"egg", 155, 13, 1, 11, 1⟩],
       DailyLogEntry.exercise "e" "09:00" "run" 300]
      [DailyLogEntry.exercise "e" "09:00" "run" 300,
       DailyLogEntry.meal "m" "08:00" [⟨"egg", 155, 13, 1, 11, 1⟩]]).2
      (List.Perm.swap (DailyLogEntry.exercise "e" "09:00" "run" 300)
        (DailyLogEntry.meal "m" "08:00" [⟨"egg", 155, 13, 1, 11, 1⟩]) [])

/-! ### Water intake (Dashboard component)

```js
const saveWaterIntake = (glasses) => { ... const newIntake = Math.max(0, glasses); ... }
const handleWaterChange = (amount) => { saveWaterIntake(waterIntake + amount); };
```
Glass counts are integers in the UI; embedded as `ℤ`. -/

/-- `saveWaterIntake`: the value actually stored and set is `Math.max(0, glasses)`. -/
def saveWaterIntake (glasses : ℤ) : ℤ := max 0 glasses

/-- `handleWaterChange`: adds the delta to the current intake and stores it
through `saveWaterIntake`. -/
def handleWaterChange (waterIntake delta : ℤ) : ℤ := saveWaterIntake (waterIntake + delta)

/-- C5: for every starting water-intake value and every delta of any sign or
magnitude, the stored/returned intake is exactly `max 0 (current + delta)` —
clamped below at zero, hence never negative, with no upper clamp. -/
theorem C5_adjustWater_clamps_at_zero (waterIntake delta : ℤ) :
    handleWaterChange waterIntake delta = max 0 (waterIntake + delta) ∧
    0 ≤ handleWaterChange waterIntake delta := by
  refine ⟨rfl, ?_⟩
  simp [handleWaterChange, saveWaterIntake]

/-! ### Unit conversion helpers (Profile component)

```js
const LBS_IN_KG = 2.20462;
const CM_IN_INCH = 2.54;
const kgToLbs = (kg) => kg * LBS_IN_KG;
const lbsToKg = (lbs) => lbs / LBS_IN_KG;
const cmToIn = (cm) => cm / CM_IN_INCH;
const inToCm = (inches) => inches * CM_IN_INCH;
```
Arithmetic is embedded exactly over `ℚ`; the round trip is then exact, which
is the idealized statement the spec qualifies with "within floating-point
tolerance". -/

def LBS_IN_KG : ℚ := 2.20462

def CM_IN_INCH : ℚ := 2.54

def kgToLbs (kg : ℚ) : ℚ := kg * LBS_IN_KG

def lbsToKg (lbs : ℚ) : ℚ := lbs / LBS_IN_KG

def cmToIn (cm : ℚ) : ℚ := cm / CM_IN_INCH

def inToCm (inches : ℚ) : ℚ := inches * CM_IN_INCH

/-- C6: the conversion functions are exact inverse pairs — for every
non-negative x, `kgToLbs (lbsToKg x) = x` and `cmToIn (inToCm x) = x`
(exactly, in the rational embedding). -/
theorem C6_unit_conversions_roundtrip (x : ℚ) (hx : 0 ≤ x) :
    kgToLbs (lbsToKg x) = x ∧ cmToIn (inToCm x) = x := by
  constructor
  · have h : LBS_IN_KG ≠ 0 := by norm_num [LBS_IN_KG]
    field_simp [kgToLbs, lbsToKg]
  · have h : CM_IN_INCH ≠ 0 := by norm_num [CM_IN_INCH]
    field_simp [cmToIn, inToCm]

/-- Witness for C6 at x = 3. -/
theorem C6_witness : kgToLbs (lbsToKg 3) = 3 ∧ cmToIn (inToCm 3) = 3 :=
  C6_unit_conversions_roundtrip 3 (by norm_num)

/-! ### Date bucketing (Dashboard component)

```js
const getTodaysDateKey = () => new Date().toISOString().slice(0, 10);
const saveLog = (log) => {
    const today = getTodaysDateKey();
    ...
    allLogs[today] = log;
    ...
};
```
`Date.prototype.toISOString` always renders the instant in UTC, so
`slice(0, 10)` is the UTC calendar date of the instant.  An instant is
embedded as milliseconds since the Unix epoch (`ℤ`), and an ISO `YYYY-MM-DD`
string as its day number: two instants render the same `YYYY-MM-DD` prefix
iff they have the same floor-quotient by 86400000 ms. -/

def msPerDay : ℤ := 86400000

/-- The UTC calendar date (as a day number) of an instant: what
`toISOString().slice(0, 10)` denotes. -/
def utcCalendarDay (nowMs : ℤ) : ℤ := Int.fdiv nowMs msPerDay

/-- Modelled from the spec's words, for comparison: the local-time-zone
calendar date of an instant, where `tzOffsetMs` is the local clock's offset
from UTC in milliseconds (east of Greenwich positive). -/
def localCalendarDay (nowMs tzOffsetMs : ℤ) : ℤ := Int.fdiv (nowMs + tzOffsetMs) msPerDay

/-- `getTodaysDateKey` at a call instant: `new Date()` is the instant itself
and `toISOString().slice(0, 10)` is its UTC calendar date. -/
def getTodaysDateKey (nowMs : ℤ) : ℤ := utcCalendarDay nowMs

/-- `saveLog` at a call instant: writes the day's log into the all-logs map
under the key computed by `getTodaysDateKey`.  The map is embedded as a
function from date keys to day logs. -/
def saveLog (nowMs : ℤ) (log : List DailyLogEntry) (allLogs : ℤ → List DailyLogEntry) :
    ℤ → List DailyLogEntry :=
  fun k => if k = getTodaysDateKey nowMs then log else allLogs k

/-- The read of today's log bucket in the Dashboard mount effect
(`allLogs[today] || []`). -/
def loadTodaysLog (nowMs : ℤ) (allLogs : ℤ → List DailyLogEntry) : List DailyLogEntry :=
  allLogs (getTodaysDateKey nowMs)

/-- The date stamped alongside the water count (`nutrisnap_logDate`). -/
def waterIntakeDateKey (nowMs : ℤ) : ℤ := getTodaysDateKey nowMs

/-- C4 counterexample: at the instant 10.8e6 ms (03:00 UTC on epoch day 0)
with a local clock 5 hours behind UTC, the key used by the ledger is epoch
day 0 while the local calendar date is epoch day −1, so the date key does
not equal the local-time-zone calendar date at the call instant. -/
theorem C4_counterexample :
    getTodaysDateKey 10800000 = 0 ∧
    localCalendarDay 10800000 (-18000000) = -1 ∧
    getTodaysDateKey 10800000 ≠ localCalendarDay 10800000 (-18000000) := by
  refine ⟨by decide, by decide, by decide⟩

/-- C4 amended: every ledger operation (reading today's log, saving a log,
stamping the water-intake date) acts on the bucket keyed by the UTC calendar
date of the call instant — the ISO date rendered by `toISOString` — not the
local-time-zone calendar date. -/
theorem C4_date_bucketing_utc (nowMs : ℤ) (log : List DailyLogEntry)
    (allLogs : ℤ → List DailyLogEntry) :
    getTodaysDateKey nowMs = utcCalendarDay nowMs ∧
    waterIntakeDateKey nowMs = utcCalendarDay nowMs ∧
    loadTodaysLog nowMs allLogs = allLogs (utcCalendarDay nowMs) ∧
    saveLog nowMs log allLogs (utcCalendarDay nowMs) = log ∧
    (∀ k, k ≠ utcCalendarDay nowMs → saveLog nowMs log allLogs k = allLogs k) := by
  refine ⟨rfl, rfl, rfl, ?_, ?_⟩
  · simp [saveLog, getTodaysDateKey]
  · intro k hk
    simp [saveLog, getTodaysDateKey, hk]

/-- Witness for C4 amended: a save at instant 10.8e6 ms leaves the bucket of
a different day (epoch day 1) untouched. -/
theorem C4_witness : saveLog 10800000 [] (fun _ => []) 1 = [] :=
  (C4_date_bucketing_utc 10800000 [] (fun _ => [])).2.2.2.2 1 (by decide)

/-! ### Calorie-goal estimator (`calculatedCalorieGoal`, Onboarding component)

```js
const { age, height, currentWeight, activityLevel, fitnessGoal } = formData;
if (!age || !height || !currentWeight || !activityLevel || !fitnessGoal) return 0;
const bmr = 10 * currentWeight + 6.25 * height - 5 * age + 5;
const tdee = bmr * activityMultipliers[activityLevel];
return Math.round(tdee + goalAdjustments[fitnessGoal]);
```
The numeric fields are optional numbers; `!x` is true for `undefined` and
for `0`, so a present-but-zero numeric field also takes the early return. -/

inductive ActivityLevel where
  | sedentary | lightlyActive | moderatelyActive | veryActive | extraActive
deriving Repr, DecidableEq

inductive FitnessGoal where
  | loseWeight | maintainWeight | buildMuscle
deriving Repr, DecidableEq

/-- The `activityMultipliers` table. -/
def activityMultipliers : ActivityLevel → ℚ
  | .sedentary => 1.2
  | .lightlyActive => 1.375
  | .moderatelyActive => 1.55
  | .veryActive => 1.725
  | .extraActive => 1.9

/-- The `goalAdjustments` table. -/
def goalAdjustments : FitnessGoal → ℚ
  | .loseWeight => -500
  | .maintainWeight => 0
  | .buildMuscle => 300

/-- `Math.round`: round half away from negative infinity, `⌊x + 1/2⌋`. -/
def jsRound (x : ℚ) : ℤ := ⌊x + 1 / 2⌋

/-- `calculatedCalorieGoal`: 0 when any required field is absent (or a
numeric field is zero — JavaScript falsiness), otherwise the rounded
activity-scaled basal rate plus the goal adjustment. -/
def calculatedCalorieGoal (age height currentWeight : Option ℚ)
    (activityLevel : Option ActivityLevel) (fitnessGoal : Option FitnessGoal) : ℤ :=
  match age, height, currentWeight, activityLevel, fitnessGoal with
  | some a, some h, some w, some al, some fg =>
      if a = 0 ∨ h = 0 ∨ w = 0 then 0
      else
        jsRound ((10 * w + 6.25 * h - 5 * a + 5) * activityMultipliers al + goalAdjustments fg)
  | _, _, _, _, _ => 0

/-- C3 counterexample: the claim's concrete example is wrong, and its
"otherwise the formula" clause fails on zero-valued inputs.  At age = 30,
height = 170, weight = 70, Sedentary, Lose Weight the code yields 1441 (the
basal rate is 1617.5, not 1637.5), not 1465; and at age = 0 (present but
zero) the code returns the sentinel 0 although the claim's formula value at
a complete input would be 1621. -/
theorem C3_counterexample :
    calculatedCalorieGoal (some 30) (some 170) (some 70)
        (some .sedentary) (some .loseWeight) = 1441 ∧
    (1441 : ℤ) ≠ 1465 ∧
    calculatedCalorieGoal (some 0) (some 170) (some 70)
        (some .sedentary) (some .loseWeight) = 0 ∧
    jsRound ((10 * 70 + 6.25 * 170 - 5 * 0 + 5) * activityMultipliers .sedentary
        + goalAdjustments .loseWeight) = 1621 := by
  refine ⟨?_, by decide, ?_, ?_⟩
  · show jsRound ((10 * 70 + 6.25 * 170 - 5 * 30 + 5) * activityMultipliers .sedentary
        + goalAdjustments .loseWeight) = 1441
    norm_num [jsRound, activityMultipliers, goalAdjustments]
  · rfl
  · norm_num [jsRound, activityMultipliers, goalAdjustments]

/-- C3 amended: the estimator returns exactly 0 when any of age, height,
currentWeight, activityLevel or fitnessGoal is absent (a zero numeric value
is likewise treated as absent — JavaScript falsiness); for every complete
input with positive age, height and weight it returns
`Math.round((10×weight + 6.25×height − 5×age + 5) × activityFactor +
goalAdjustment)`; in particular age = 30, height = 170, weight = 70,
Sedentary, Lose Weight yields 1441. -/
theorem C3_calorie_goal (age height currentWeight : Option ℚ)
    (activityLevel : Option ActivityLevel) (fitnessGoal : Option FitnessGoal) :
    ((age = none ∨ height = none ∨ currentWeight = none ∨
        activityLevel = none ∨ fitnessGoal = none) →
      calculatedCalorieGoal age height currentWeight activityLevel fitnessGoal = 0) ∧
    (∀ a h w al fg, age = some a → height = some h → currentWeight = some w →
        activityLevel = some al → fitnessGoal = some fg →
        0 < a → 0 < h → 0 < w →
      calculatedCalorieGoal age height currentWeight activityLevel fitnessGoal =
        jsRound ((10 * w + 6.25 * h - 5 * a + 5) * activityMultipliers al
          + goalAdjustments fg)) ∧
    calculatedCalorieGoal (some 30) (some 170) (some 70)
        (some .sedentary) (some .loseWeight) = 1441 := by
  refine ⟨?_, ?_, ?_⟩
  · rintro (rfl | rfl | rfl | rfl | rfl) <;> simp [calculatedCalorieGoal]
  · rintro a h w al fg rfl rfl rfl rfl rfl ha hh hw
    have : ¬(a = 0 ∨ h = 0 ∨ w = 0) := by
      push_neg
      exact ⟨ne_of_gt ha, ne_of_gt hh, ne_of_gt hw⟩
    simp [calculatedCalorieGoal, this]
  · show jsRound ((10 * 70 + 6.25 * 170 - 5 * 30 + 5) * activityMultipliers .sedentary
        + goalAdjustments .loseWeight) = 1441
    norm_num [jsRound, activityMultipliers, goalAdjustments]

/-- Witness for C3 amended: absence of the activity level forces 0, and the
complete positive input 30/170/70/Sedentary/Lose Weight follows the formula,
evaluating to 1441. -/
theorem C3_witness :
    calculatedCalorieGoal (some 30) (some 170) (some 70) none (some .loseWeight) = 0 ∧
    calculatedCalorieGoal (some 30) (some 170) (some 70)
        (some .sedentary) (some .loseWeight) =
      jsRound ((10 * 70 + 6.25 * 170 - 5 * 30 + 5) * activityMultipliers .sedentary
        + goalAdjustments .loseWeight) := by
  constructor
  · exact (C3_calorie_goal (some 30) (some 170) (some 70) none (some .loseWeight)).1
      (Or.inr (Or.inr (Or.inr (Or.inl rfl))))
  · exact (C3_calorie_goal (some 30) (some 170) (some 70)
      (some .sedentary) (some .loseWeight)).2.1 30 170 70 .sedentary .loseWeight
      rfl rfl rfl rfl rfl (by norm_num) (by norm_num) (by norm_num)

/-! ### Manual meal submission (`handleManualLogSubmit`, Dashboard component)

```js
const validItems = manualItems.filter(item => item.foodName && item.calories !== undefined && item.calories > 0)
  .map(item => ({ foodName: item.foodName!, calories: item.calories!,
      protein: item.protein || 0, carbohydrates: item.carbohydrates || 0,
      fat: item.fat || 0, sugar: item.sugar || 0 }));
if (validItems.length === 0) { setError("..."); return; }
... saveLog([newLogEntry, ...dailyLog]);
```
A form row is a record of a name string (empty string for the untouched
field) and optional numbers.  `x || 0` maps an absent value to 0 and leaves
any present value unchanged (a present 0 is falsy but `0 || 0` is still 0),
so it is `Option.getD 0` exactly. -/

/-- One row of the manual-entry form. -/
structure ManualItemInput where
  foodName : String
  calories : Option ℚ
  protein : Option ℚ
  carbohydrates : Option ℚ
  fat : Option ℚ
  sugar : Option ℚ
deriving Repr, DecidableEq

/-- The filter predicate: name truthy, calories defined and positive. -/
def manualItemValid (it : ManualItemInput) : Bool :=
  it.foodName ≠ "" &&
    match it.calories with
    | some c => decide (0 < c)
    | none => false

/-- The map body: keep name and calories, coerce the optional macro fields
to 0 (`x || 0`). -/
def toMacroData (it : ManualItemInput) : MacroData :=
  { foodName := it.foodName
    calories := it.calories.getD 0
    protein := it.protein.getD 0
    carbohydrates := it.carbohydrates.getD 0
    fat := it.fat.getD 0
    sugar := it.sugar.getD 0 }

/-- `handleManualLogSubmit`: returns the inline error (if any) and the day's
persisted log after the submission.  `entryId` and `ts` stand for the
`meal_${Date.now()}` id and the locale time stamp. -/
def handleManualLogSubmit (manualItems : List ManualItemInput) (entryId ts : String)
    (dailyLog : List DailyLogEntry) : Option String × List DailyLogEntry :=
  let validItems := (manualItems.filter manualItemValid).map toMacroData
  if validItems.length = 0 then
    (some "Please enter at least one food item with a name and calories.", dailyLog)
  else
    (none, DailyLogEntry.meal entryId ts validItems :: dailyLog)

/-! ### Activity submission (`handleActivityLogSubmit`, Dashboard component)

```js
const validItems = activityItems.filter(item => item.name.trim() && item.caloriesBurned && Number(item.caloriesBurned) > 0);
if (validItems.length === 0) { setError("..."); return; }
const newActivityEntries = validItems.map((item, i) => ({
    type: 'exercise', id: `ex_${Date.now()}_${i}`, timestamp: ...,
    name: item.name, caloriesBurned: Number(item.caloriesBurned) }));
saveLog([...newActivityEntries, ...dailyLog]);
```
`caloriesBurned` holds either the empty string (embedded `none`) or a parsed
integer; `item.caloriesBurned &&` rejects the empty string and 0, and
`Number(..) > 0` then requires positivity. -/

/-- `String.prototype.trim`, modelled over the character list: drop
whitespace from both ends. -/
def jsTrim (s : String) : String :=
  ⟨((s.data.dropWhile Char.isWhitespace).reverse.dropWhile Char.isWhitespace).reverse⟩

/-- One row of the activity form. -/
structure ActivityItemInput where
  name : String
  duration : Option ℤ
  caloriesBurned : Option ℤ
deriving Repr, DecidableEq

/-- The activity filter predicate: trimmed name truthy, calories burned
present, nonzero (truthiness) and positive. -/
def activityItemValid (it : ActivityItemInput) : Bool :=
  jsTrim it.name ≠ "" &&
    match it.caloriesBurned with
    | some c => c ≠ 0 && decide (0 < c)
    | none => false

/-- `handleActivityLogSubmit`: returns the inline error (if any) and the
day's persisted log after the submission.  `idBase` stands for
`ex_${Date.now()}`; the per-item index is appended to it. -/
def handleActivityLogSubmit (activityItems : List ActivityItemInput) (idBase ts : String)
    (dailyLog : List DailyLogEntry) : Option String × List DailyLogEntry :=
  let validItems := activityItems.filter activityItemValid
  if validItems.length = 0 then
    (some "Please enter at least one activity with a name and calories burned.", dailyLog)
  else
    (none,
      validItems.enum.map (fun p =>
        DailyLogEntry.exercise (idBase ++ "_" ++ toString p.1) ts p.2.name
          ((p.2.caloriesBurned.getD 0 : ℤ) : ℚ)) ++ dailyLog)

/-- The second component of an element of `enumFrom` is an element of the
underlying list. -/
theorem mem_of_mem_enumFrom {α : Type} {l : List α} :
    ∀ {n : ℕ} {p : ℕ × α}, p ∈ l.enumFrom n → p.2 ∈ l := by
  induction l with
  | nil => intro n p hp; simp at hp
  | cons x xs ih =>
    intro n p hp
    rcases List.mem_cons.1 hp with rfl | hmem
    · exact List.mem_cons_self x xs
    · exact List.mem_cons_of_mem x (ih hmem)

/-- The second component of an element of `enum` is an element of the
underlying list. -/
theorem mem_of_mem_enum {α : Type} {l : List α} {p : ℕ × α} (hp : p ∈ l.enum) :
    p.2 ∈ l :=
  mem_of_mem_enumFrom hp

/-- A persisted meal entry is well formed when each of its items has a
nonempty name and positive calories. -/
def mealEntryWellFormed : DailyLogEntry → Prop
  | .meal _ _ items => ∀ it ∈ items, it.foodName ≠ "" ∧ 0 < it.calories
  | .exercise _ _ _ _ => False

/-- A persisted exercise entry is well formed when its name is nonblank and
its calories burned are positive. -/
def exerciseEntryWellFormed : DailyLogEntry → Prop
  | .meal _ _ _ => False
  | .exercise _ _ n cb => jsTrim n ≠ "" ∧ 0 < cb

/-- C7: a manual-meal or activity submission whose rows are all invalid (no
name, or non-positive calories / calories burned) is rejected with an inline
error and the persisted log is unchanged; and no invalid item is ever
persisted — every entry the submission adds to the log is a well-formed meal
(each item with nonempty name and positive calories), respectively a
well-formed exercise (nonblank name, positive calories burned). -/
theorem C7_submission_validation (manualItems : List ManualItemInput)
    (activityItems : List ActivityItemInput) (entryId idBase ts : String)
    (dailyLog : List DailyLogEntry) :
    ((handleManualLogSubmit manualItems entryId ts dailyLog).1.isSome →
      (handleManualLogSubmit manualItems entryId ts dailyLog).2 = dailyLog) ∧
    (∀ e ∈ (handleManualLogSubmit manualItems entryId ts dailyLog).2,
      e ∉ dailyLog → mealEntryWellFormed e) ∧
    ((handleActivityLogSubmit activityItems idBase ts dailyLog).1.isSome →
      (handleActivityLogSubmit activityItems idBase ts dailyLog).2 = dailyLog) ∧
    (∀ e ∈ (handleActivityLogSubmit activityItems idBase ts dailyLog).2,
      e ∉ dailyLog → exerciseEntryWellFormed e) := by
  refine ⟨?_, ?_, ?_, ?_⟩
  · intro h
    simp only [handleManualLogSubmit] at h ⊢
    by_cases hv : ((manualItems.filter manualItemValid).map toMacroData).length = 0
    · rw [if_pos hv]
    · rw [if_neg hv] at h
      exact absurd h (by simp)
  · intro e he hnot
    simp only [handleManualLogSubmit] at he
    by_cases hv : ((manualItems.filter manualItemValid).map toMacroData).length = 0
    · rw [if_pos hv] at he
      exact absurd he hnot
    · rw [if_neg hv] at he
      rcases List.mem_cons.1 he with rfl | hmem
      · intro it hit
        simp only [List.mem_map] at hit
        obtain ⟨row, hrow, rfl⟩ := hit
        have hvalid := (List.mem_filter.1 hrow).2
        simp only [manualItemValid, Bool.and_eq_true] at hvalid
        obtain ⟨hname, hcal⟩ := hvalid
        cases hc : row.calories with
        | none => rw [hc] at hcal; exact absurd hcal (by simp)
        | some c =>
          rw [hc] at hcal
          simp only [decide_eq_true_eq] at hcal
          refine ⟨by simpa using hname, ?_⟩
          simp [toMacroData, hc, hcal]
      · exact absurd hmem hnot
  · intro h
    simp only [handleActivityLogSubmit] at h ⊢
    by_cases hv : (activityItems.filter activityItemValid).length = 0
    · rw [if_pos hv]
    · rw [if_neg hv] at h
      exact absurd h (by simp)
  · intro e he hnot
    simp only [handleActivityLogSubmit] at he
    by_cases hv : (activityItems.filter activityItemValid).length = 0
    · rw [if_pos hv] at he
      exact absurd he hnot
    · rw [if_neg hv] at he
      rcases List.mem_append.1 he with hmem | hmem
      · simp only [List.mem_map] at hmem
        obtain ⟨p, hp, rfl⟩ := hmem
        have hrow : p.2 ∈ activityItems.filter activityItemValid :=
          mem_of_mem_enum hp
        have hvalid := (List.mem_filter.1 hrow).2
        simp only [activityItemValid, Bool.and_eq_true] at hvalid
        obtain ⟨hname, hcb⟩ := hvalid
        cases hc : p.2.caloriesBurned with
        | none => rw [hc] at hcb; exact absurd hcb (by simp)
        | some c =>
          rw [hc] at hcb
          simp only [Bool.and_eq_true, decide_eq_true_eq] at hcb
          refine ⟨by simpa using hname, ?_⟩
          simp only [exerciseEntryWellFormed, hc, Option.getD_some]
          exact_mod_cast hcb.2
      · exact absurd hmem hnot

/-- Witness for C7: a manual submission whose only row has no name is
rejected and leaves the day's log unchanged; the meal entry persisted for a
valid row is well formed; an activity submission whose only row has a blank
name is rejected and leaves the log unchanged; the exercise entry persisted
for a valid row is well formed. -/
theorem C7_witness :
    (handleManualLogSubmit [⟨"", some 95, none, none, none, none⟩] "m1" "t"
        [DailyLogEntry.exercise "e0" "t" "run" 100]).2 =
      [DailyLogEntry.exercise "e0" "t" "run" 100] ∧
    mealEntryWellFormed (DailyLogEntry.meal "m1" "t" [⟨"apple", 95, 0, 0, 0, 0⟩]) ∧
    (handleActivityLogSubmit [⟨" ", none, none⟩] "ex" "t"
        [DailyLogEntry.exercise "e0" "t" "run" 100]).2 =
      [DailyLogEntry.exercise "e0" "t" "run" 100] ∧
    exerciseEntryWellFormed (DailyLogEntry.exercise "ex_0" "t" "run" 300) := by
  refine ⟨?_, ?_, ?_, ?_⟩
  · exact (C7_submission_validation [⟨"", some 95, none, none, none, none⟩] []
      "m1" "ex" "t" [DailyLogEntry.exercise "e0" "t" "run" 100]).1 rfl
  · exact (C7_submission_validation [⟨"apple", some 95, none, none, none, none⟩] []
      "m1" "ex" "t" []).2.1 (DailyLogEntry.meal "m1" "t" [⟨"apple", 95, 0, 0, 0, 0⟩])
      (by decide) (by simp)
  · exact (C7_submission_validation [] [⟨" ", none, none⟩]
      "m1" "ex" "t" [DailyLogEntry.exercise "e0" "t" "run" 100]).2.2.1 (by decide)
  · exact (C7_submission_validation [] [⟨"run", none, some 300⟩]
      "m1" "ex" "t" []).2.2.2 (DailyLogEntry.exercise "ex_0" "t" "run" 300)
      (by decide) (by simp)

/-! ### Profile load (App component mount effect)

```js
const savedProfile = JSON.parse(savedProfileJSON);            // throw → catch: clear
if (savedProfile && typeof savedProfile === 'object') {
  const defaultProfile = { name: 'User', email: '', avatarUrl: '' };
  const migratedProfile = { ...defaultProfile, ...savedProfile };
  if (migratedProfile.name && migratedProfile.email && migratedProfile.avatarUrl) {
    setUserProfile(migratedProfile); ...                      // sign-up skipped
  } else { /* clear */ }
} else { /* clear */ }
```
The persisted value is abstracted as: absent key, unparseable JSON
(`corrupt`, taking the catch branch), parseable but not an object
(`nonObject`), or an object whose three profile fields are each absent or a
string.  The spread over `defaultProfile` is `Option.getD` with the
defaults; the truthiness test is nonemptiness of the merged strings.
`App` renders `SignUp` exactly when no profile was set. -/

/-- The three profile fields of a persisted object record; `none` = the key
is absent from the stored object. -/
structure StoredProfileObj where
  name : Option String
  email : Option String
  avatarUrl : Option String
deriving Repr, DecidableEq

/-- What `localStorage.getItem('nutrisnap_userProfile')` can hold. -/
inductive StoredProfileValue where
  | corrupt
  | nonObject
  | obj (record : StoredProfileObj)
deriving Repr, DecidableEq

/-- The application state the load effect leaves behind: either the sign-up
entry state (no profile set) or a loaded profile (sign-up skipped). -/
inductive ProfileLoadResult where
  | signUpEntry
  | loaded (name email avatarUrl : String)
deriving Repr, DecidableEq

/-- The profile-load effect. -/
def loadProfile : Option StoredProfileValue → ProfileLoadResult
  | none => .signUpEntry
  | some .corrupt => .signUpEntry
  | some .nonObject => .signUpEntry
  | some (.obj r) =>
      let name := r.name.getD "User"
      let email := r.email.getD ""
      let avatarUrl := r.avatarUrl.getD ""
      if name ≠ "" ∧ email ≠ "" ∧ avatarUrl ≠ "" then .loaded name email avatarUrl
      else .signUpEntry

/-- C8 counterexample: a persisted record missing the required `name` field
(but carrying an email and an avatar) is NOT discarded — the merge with the
default profile fills in the name `"User"`, the record loads and sign-up is
skipped, contradicting the claim that a record missing any of name, email
or avatar returns the application to the sign-up entry state. -/
theorem C8_counterexample :
    loadProfile (some (.obj ⟨none, some "u@example.com", some "avatar.png"⟩)) =
      .loaded "User" "u@example.com" "avatar.png" ∧
    loadProfile (some (.obj ⟨none, some "u@example.com", some "avatar.png"⟩)) ≠
      .signUpEntry := by
  exact ⟨by decide, by decide⟩

/-- C8 amended: a persisted profile record that is not parseable JSON or not
an object is discarded and the application returns to the sign-up entry
state rather than throwing; so is an object record whose merged email or
avatar is missing or empty, or whose name is present but empty.  A record
missing only the name is loaded with the default name `"User"`; a record
with all three fields present and nonempty is loaded as is.  In both loaded
cases sign-up is skipped. -/
theorem C8_profile_load (r : StoredProfileObj) :
    loadProfile none = .signUpEntry ∧
    loadProfile (some .corrupt) = .signUpEntry ∧
    loadProfile (some .nonObject) = .signUpEntry ∧
    ((r.email.getD "" = "" ∨ r.avatarUrl.getD "" = "" ∨ r.name = some "") →
      loadProfile (some (.obj r)) = .signUpEntry) ∧
    ((r.name.getD "User" ≠ "" ∧ r.email.getD "" ≠ "" ∧ r.avatarUrl.getD "" ≠ "") →
      loadProfile (some (.obj r)) =
        .loaded (r.name.getD "User") (r.email.getD "") (r.avatarUrl.getD "")) := by
  refine ⟨rfl, rfl, rfl, ?_, ?_⟩
  · intro h
    simp only [loadProfile]
    rw [if_neg]
    rcases h with h | h | h
    · rw [h]; rintro ⟨-, hne, -⟩; exact hne rfl
    · rw [h]; rintro ⟨-, -, hne⟩; exact hne rfl
    · rw [h]; rintro ⟨hne, -, -⟩; exact hne rfl
  · rintro ⟨h1, h2, h3⟩
    simp only [loadProfile]
    rw [if_pos ⟨h1, h2, h3⟩]

/-- Witness for C8 amended: a record with an empty avatar field is
discarded back to sign-up; a complete record loads with sign-up skipped. -/
theorem C8_witness :
    loadProfile (some (.obj ⟨some "Ana", some "a@b.c", some ""⟩)) = .signUpEntry ∧
    loadProfile (some (.obj ⟨some "Ana", some "a@b.c", some "pic.png"⟩)) =
      .loaded "Ana" "a@b.c" "pic.png" := by
  constructor
  · exact (C8_profile_load ⟨some "Ana", some "a@b.c", some ""⟩).2.2.2.1
      (Or.inr (Or.inl rfl))
  · exact (C8_profile_load ⟨some "Ana", some "a@b.c", some "pic.png"⟩).2.2.2.2
      ⟨by decide, by decide, by decide⟩

/-! ### Item deletion (`handleDeleteItem` with an item index, Dashboard)

```js
newLog = dailyLog.map(entry => {
    if (entry.id === entryId && entry.type === 'meal') {
        const newItems = entry.items.filter((_, index) => index !== itemIndex);
        return { ...entry, items: newItems };
    }
    return entry;
}).filter(entry => entry.type === 'exercise' || (entry.type === 'meal' && entry.items.length > 0));
saveLog(newLog);
```
The indexed `filter` is embedded with an explicit running index. -/

/-- `items.filter((_, index) => index !== itemIndex)` with running index `k`. -/
def filterOutIdxFrom (j : ℕ) : ℕ → List MacroData → List MacroData
  | _, [] => []
  | k, x :: xs =>
      if k ≠ j then x :: filterOutIdxFrom j (k + 1) xs else filterOutIdxFrom j (k + 1) xs

/-- `items.filter((_, index) => index !== itemIndex)`. -/
def filterOutIdx (items : List MacroData) (j : ℕ) : List MacroData :=
  filterOutIdxFrom j 0 items

/-- The id of a log entry (`entry.id`). -/
def entryIdOf : DailyLogEntry → String
  | .meal i _ _ => i
  | .exercise i _ _ _ => i

/-- The map body of `handleDeleteItem`: on the meal with the matching id,
drop the item at `itemIndex`; leave every other entry alone. -/
def deleteItemMap (entryId : String) (itemIndex : ℕ) : DailyLogEntry → DailyLogEntry
  | .meal i t items =>
      if i = entryId then .meal i t (filterOutIdx items itemIndex) else .meal i t items
  | .exercise i t n cb => .exercise i t n cb

/-- The trailing filter: keep every exercise, and every meal whose item list
is still nonempty. -/
def keepEntry : DailyLogEntry → Bool
  | .meal _ _ items => decide (0 < items.length)
  | .exercise _ _ _ _ => true

/-- `handleDeleteItem(entryId, itemIndex)` with a defined item index: the
day's log after the deletion (the confirmation dialog is UI boundary). -/
def handleDeleteItem (entryId : String) (itemIndex : ℕ)
    (dailyLog : List DailyLogEntry) : List DailyLogEntry :=
  (dailyLog.map (deleteItemMap entryId itemIndex)).filter keepEntry

/-- No meal entry of the log has an empty item list (the DailyLog
invariant: no empty meals persist). -/
def noEmptyMeals (l : List DailyLogEntry) : Prop :=
  ∀ i t items, DailyLogEntry.meal i t items ∈ l → items ≠ []

theorem filterOutIdxFrom_of_lt (j : ℕ) :
    ∀ (xs : List MacroData) (k : ℕ), j < k → filterOutIdxFrom j k xs = xs := by
  intro xs
  induction xs with
  | nil => intro k hk; rfl
  | cons x xs ih =>
    intro k hk
    have hne : k ≠ j := by omega
    simp only [filterOutIdxFrom, if_pos hne]
    rw [ih (k + 1) (by omega)]

theorem filterOutIdxFrom_eq_eraseIdx :
    ∀ (xs : List MacroData) (j k : ℕ), filterOutIdxFrom (j + k) k xs = xs.eraseIdx j := by
  intro xs
  induction xs with
  | nil => intro j k; rfl
  | cons x xs ih =>
    intro j k
    cases j with
    | zero =>
      have hk : ¬(k ≠ 0 + k) := by omega
      simp only [filterOutIdxFrom, if_neg hk, List.eraseIdx_cons_zero]
      exact filterOutIdxFrom_of_lt (0 + k) xs (k + 1) (by omega)
    | succ j =>
      have hk : k ≠ j + 1 + k := by omega
      simp only [filterOutIdxFrom, if_pos hk, List.eraseIdx_cons_succ]
      have h := ih j (k + 1)
      rw [show j + (k + 1) = j + 1 + k by omega] at h
      rw [h]

theorem filterOutIdx_eq_eraseIdx (items : List MacroData) (j : ℕ) :
    filterOutIdx items j = items.eraseIdx j := by
  simpa using filterOutIdxFrom_eq_eraseIdx items j 0

theorem map_deleteItemMap_of_not_mem (eid : String) (i : ℕ) :
    ∀ l : List DailyLogEntry, eid ∉ l.map entryIdOf →
      l.map (deleteItemMap eid i) = l := by
  intro l
  induction l with
  | nil => intro h; rfl
  | cons e l ih =>
    intro h
    simp only [List.map_cons, List.mem_cons, not_or] at h
    obtain ⟨hhead, htail⟩ := h
    rw [List.map_cons, ih htail]
    congr 1
    cases e with
    | meal j t items =>
      have : j ≠ eid := fun hje => hhead (by simp [entryIdOf, hje])
      simp [deleteItemMap, this]
    | exercise j t n cb => rfl

theorem filter_keepEntry_of_noEmptyMeals :
    ∀ l : List DailyLogEntry, noEmptyMeals l → l.filter keepEntry = l := by
  intro l
  induction l with
  | nil => intro h; rfl
  | cons e l ih =>
    intro h
    have htail : noEmptyMeals l := fun i t items hm => h i t items (List.mem_cons_of_mem e hm)
    have hkeep : keepEntry e = true := by
      cases e with
      | meal i t items =>
        have : items ≠ [] := h i t items (List.mem_cons_self _ _)
        simp [keepEntry, List.length_pos, this]
      | exercise i t n cb => rfl
    rw [List.filter_cons_of_pos hkeep, ih htail]

theorem mealTotals_eraseIdx (items : List MacroData) :
    ∀ (i : ℕ) (h : i < items.length),
      mealTotals (items.eraseIdx i) + itemTotals (items.get ⟨i, h⟩) = mealTotals items := by
  induction items with
  | nil => intro i h; simp at h
  | cons x xs ih =>
    intro i h
    cases i with
    | zero =>
      simp only [List.eraseIdx_cons_zero, List.get]
      show mealTotals xs + itemTotals x = mealTotals (x :: xs)
      rw [show mealTotals (x :: xs) = itemTotals x + mealTotals xs from rfl]
      exact DailyTotals.add_comm' _ _
    | succ i =>
      simp only [List.eraseIdx_cons_succ, List.get]
      show mealTotals (x :: xs.eraseIdx i) + itemTotals (xs.get ⟨i, _⟩) = mealTotals (x :: xs)
      rw [show mealTotals (x :: xs.eraseIdx i) = itemTotals x + mealTotals (xs.eraseIdx i) from rfl,
        show mealTotals (x :: xs) = itemTotals x + mealTotals xs from rfl,
        DailyTotals.add_assoc', ih i (by simpa using h)]

/-- C2: on a day log satisfying the no-empty-meals invariant, with a unique
targeted meal id: deleting item `i` of that meal removes exactly the item at
position `i` — so the subsequent `computeTotals` drops exactly that item's
contribution — and drops the whole entry when the removal empties its item
list; an out-of-range `i` is a no-op leaving the log unchanged. -/
theorem C2_deleteMealItem (pre post : List DailyLogEntry) (eid ts : String)
    (items : List MacroData) (i : ℕ)
    (hid : eid ∉ (pre ++ post).map entryIdOf)
    (hinv : noEmptyMeals (pre ++ post))
    (hitems : items ≠ []) :
    (∀ h : i < items.length,
      handleDeleteItem eid i (pre ++ DailyLogEntry.meal eid ts items :: post) =
        pre ++ (if items.eraseIdx i = [] then post
                else DailyLogEntry.meal eid ts (items.eraseIdx i) :: post) ∧
      computeTotals (handleDeleteItem eid i (pre ++ DailyLogEntry.meal eid ts items :: post))
          + itemTotals (items.get ⟨i, h⟩) =
        computeTotals (pre ++ DailyLogEntry.meal eid ts items :: post)) ∧
    (items.length ≤ i →
      handleDeleteItem eid i (pre ++ DailyLogEntry.meal eid ts items :: post) =
        pre ++ DailyLogEntry.meal eid ts items :: post) := by
  have hidpre : eid ∉ pre.map entryIdOf := by
    intro hmem; exact hid (by simp only [List.map_append, List.mem_append]; exact Or.inl hmem)
  have hidpost : eid ∉ post.map entryIdOf := by
    intro hmem; exact hid (by simp only [List.map_append, List.mem_append]; exact Or.inr hmem)
  have hinvpre : noEmptyMeals pre := fun a t its hm =>
    hinv a t its (List.mem_append_left _ hm)
  have hinvpost : noEmptyMeals post := fun a t its hm =>
    hinv a t its (List.mem_append_right _ hm)
  have hmap : ∀ j : ℕ,
      handleDeleteItem eid j (pre ++ DailyLogEntry.meal eid ts items :: post) =
        pre.filter keepEntry ++
          (DailyLogEntry.meal eid ts (items.eraseIdx j) :: post).filter keepEntry := by
    intro j
    unfold handleDeleteItem
    rw [List.map_append, List.map_cons, map_deleteItemMap_of_not_mem eid j pre hidpre,
      map_deleteItemMap_of_not_mem eid j post hidpost, List.filter_append]
    congr 2
    simp [deleteItemMap, filterOutIdx_eq_eraseIdx]
  constructor
  · intro h
    have hstruct : handleDeleteItem eid i (pre ++ DailyLogEntry.meal eid ts items :: post) =
        pre ++ (if items.eraseIdx i = [] then post
                else DailyLogEntry.meal eid ts (items.eraseIdx i) :: post) := by
      rw [hmap i, filter_keepEntry_of_noEmptyMeals pre hinvpre]
      by_cases he : items.eraseIdx i = []
      · rw [if_pos he, he]
        rw [show List.filter keepEntry (DailyLogEntry.meal eid ts [] :: post) =
            List.filter keepEntry post from by simp [List.filter, keepEntry]]
        rw [filter_keepEntry_of_noEmptyMeals post hinvpost]
      · rw [if_neg he]
        have hkeep : keepEntry (DailyLogEntry.meal eid ts (items.eraseIdx i)) = true := by
          simp [keepEntry, List.length_pos, he]
        rw [List.filter_cons_of_pos hkeep, filter_keepEntry_of_noEmptyMeals post hinvpost]
    refine ⟨hstruct, ?_⟩
    rw [hstruct]
    rw [computeTotals_eq_refTotals, computeTotals_eq_refTotals,
      refTotals_append, refTotals_append]
    by_cases he : items.eraseIdx i = []
    · rw [if_pos he]
      have := mealTotals_eraseIdx items i h
      rw [he] at this
      have hz : mealTotals ([] : List MacroData) = 0 := rfl
      rw [hz, DailyTotals.zero_add'] at this
      show refTotals pre + refTotals post + itemTotals (items.get ⟨i, h⟩) =
        refTotals pre + refTotals (DailyLogEntry.meal eid ts items :: post)
      rw [show refTotals (DailyLogEntry.meal eid ts items :: post) =
          entryTotals (DailyLogEntry.meal eid ts items) + refTotals post from rfl]
      rw [show entryTotals (DailyLogEntry.meal eid ts items) = mealTotals items from rfl, ← this]
      rw [DailyTotals.add_assoc', DailyTotals.add_comm' (refTotals post) _,
        ← DailyTotals.add_assoc']
    · rw [if_neg he]
      show refTotals pre + refTotals (DailyLogEntry.meal eid ts (items.eraseIdx i) :: post)
          + itemTotals (items.get ⟨i, h⟩) =
        refTotals pre + refTotals (DailyLogEntry.meal eid ts items :: post)
      rw [show refTotals (DailyLogEntry.meal eid ts (items.eraseIdx i) :: post) =
          mealTotals (items.eraseIdx i) + refTotals post from rfl,
        show refTotals (DailyLogEntry.meal eid ts items :: post) =
          mealTotals items + refTotals post from rfl]
      rw [← mealTotals_eraseIdx items i h]
      rw [DailyTotals.add_assoc', DailyTotals.add_assoc']
      congr 1
      rw [DailyTotals.add_comm' (refTotals post) (itemTotals _), ← DailyTotals.add_assoc']
  · intro h
    rw [hmap i, List.eraseIdx_of_length_le h,
      filter_keepEntry_of_noEmptyMeals pre hinvpre]
    have hkeep : keepEntry (DailyLogEntry.meal eid ts items) = true := by
      simp [keepEntry, List.length_pos, hitems]
    rw [List.filter_cons_of_pos hkeep, filter_keepEntry_of_noEmptyMeals post hinvpost]

/-- Witness for C2 at a one-meal log: deleting the only item of the meal
drops the whole entry from the log and removes exactly that item's
contribution from the totals, while an out-of-range index 5 is a no-op. -/
theorem C2_witness :
    handleDeleteItem "m1" 0 [DailyLogEntry.meal "m1" "t" [⟨"apple", 95, 0, 0, 0, 0⟩]] = [] ∧
    computeTotals (handleDeleteItem "m1" 0
        [DailyLogEntry.meal "m1" "t" [⟨"apple", 95, 0, 0, 0, 0⟩]])
        + itemTotals ⟨"apple", 95, 0, 0, 0, 0⟩ =
      computeTotals [DailyLogEntry.meal "m1" "t" [⟨"apple", 95, 0, 0, 0, 0⟩]] ∧
    handleDeleteItem "m1" 5 [DailyLogEntry.meal "m1" "t" [⟨"apple", 95, 0, 0, 0, 0⟩]] =
      [DailyLogEntry.meal "m1" "t" [⟨"apple", 95, 0, 0, 0, 0⟩]] := by
  have hid : "m1" ∉ (([] : List DailyLogEntry) ++ []).map entryIdOf := by simp
  have hinv : noEmptyMeals (([] : List DailyLogEntry) ++ []) := by
    intro a b c hm; simp at hm
  have hzero := C2_deleteMealItem [] [] "m1" "t" [⟨"apple", 95, 0, 0, 0, 0⟩] 0 hid hinv
    (by simp)
  have hoor := C2_deleteMealItem [] [] "m1" "t" [⟨"apple", 95, 0, 0, 0, 0⟩] 5 hid hinv
    (by simp)
  have h0 : (0 : ℕ) < ([⟨"apple", 95, 0, 0, 0, 0⟩] : List MacroData).length := by simp
  refine ⟨?_, ?_, ?_⟩
  · simpa using (hzero.1 h0).1
  · simpa using (hzero.1 h0).2
  · simpa using hoor.2 (by simp)

/-! ### Item editing (`handleSaveEdit` / `handleEditFormChange`, Dashboard)

```js
const newLog = dailyLog.map(entry => {
    if (entry.id === editingItem.mealId && entry.type === 'meal') {
        const newItems = [...entry.items];
        newItems[editingItem.itemIndex] = editingItem.data;
        return { ...entry, items: newItems };
    }
    return entry;
});
saveLog(newLog);
```
For the valid indices the claim covers, the copied-array assignment is
`List.set`.  The edit form's change handler coerces an emptied numeric field
to 0: `isNumeric ? (value === '' ? 0 : parseFloat(value)) : value`. -/

/-- The map body of `handleSaveEdit`: replace the item at `itemIndex` of the
meal with the matching id; every other entry is returned as is. -/
def editItemMap (mealId : String) (itemIndex : ℕ) (data : MacroData) :
    DailyLogEntry → DailyLogEntry
  | .meal i t items =>
      if i = mealId then .meal i t (items.set itemIndex data) else .meal i t items
  | .exercise i t n cb => .exercise i t n cb

/-- `handleSaveEdit` with `editingItem = { mealId, itemIndex, data }`. -/
def handleSaveEdit (mealId : String) (itemIndex : ℕ) (data : MacroData)
    (dailyLog : List DailyLogEntry) : List DailyLogEntry :=
  dailyLog.map (editItemMap mealId itemIndex data)

/-- `handleEditFormChange` on a numeric field: an emptied input is coerced
to 0, a filled one to its parsed value. -/
def editNumericField (value : Option ℚ) : ℚ :=
  match value with
  | none => 0
  | some x => x

theorem map_editItemMap_of_not_mem (eid : String) (i : ℕ) (d : MacroData) :
    ∀ l : List DailyLogEntry, eid ∉ l.map entryIdOf →
      l.map (editItemMap eid i d) = l := by
  intro l
  induction l with
  | nil => intro h; rfl
  | cons e l ih =>
    intro h
    simp only [List.map_cons, List.mem_cons, not_or] at h
    obtain ⟨hhead, htail⟩ := h
    rw [List.map_cons, ih htail]
    congr 1
    cases e with
    | meal j t items =>
      have : j ≠ eid := fun hje => hhead (by simp [entryIdOf, hje])
      simp [editItemMap, this]
    | exercise j t n cb => rfl

/-- C9: for a day log containing a uniquely-identified meal entry and a
valid item index, `editMealItem` replaces exactly the item at that position
with the supplied complete replacement record and changes nothing else:
every other log entry is returned as is, the edited meal keeps its id,
timestamp and every other item (position by position), and a numeric field
left empty in the edit form is coerced to zero in the replacement record. -/
theorem C9_editMealItem (pre post : List DailyLogEntry) (eid ts : String)
    (items : List MacroData) (i : ℕ) (d : MacroData)
    (hid : eid ∉ (pre ++ post).map entryIdOf)
    (hvalid : i < items.length) :
    handleSaveEdit eid i d (pre ++ DailyLogEntry.meal eid ts items :: post) =
      pre ++ DailyLogEntry.meal eid ts (items.set i d) :: post ∧
    (items.set i d)[i]? = some d ∧
    (∀ j, j ≠ i → (items.set i d)[j]? = items[j]?) ∧
    editNumericField none = 0 := by
  have hidpre : eid ∉ pre.map entryIdOf := by
    intro hmem; exact hid (by simp only [List.map_append, List.mem_append]; exact Or.inl hmem)
  have hidpost : eid ∉ post.map entryIdOf := by
    intro hmem; exact hid (by simp only [List.map_append, List.mem_append]; exact Or.inr hmem)
  refine ⟨?_, ?_, ?_, rfl⟩
  · unfold handleSaveEdit
    rw [List.map_append, List.map_cons, map_editItemMap_of_not_mem eid i d pre hidpre,
      map_editItemMap_of_not_mem eid i d post hidpost]
    congr 1
    simp [editItemMap]
  · exact List.getElem?_set_eq_of_lt d hvalid
  · intro j hj
    exact List.getElem?_set_ne (fun hij => hj hij.symm)

/-- Witness for C9: editing item 0 of a two-item meal replaces exactly that
item, keeps the second item and the neighbouring exercise entry untouched,
and the form coercion maps an emptied numeric field to 0. -/
theorem C9_witness :
    handleSaveEdit "m1" 0 ⟨"pear", 101, 1, 27, 0, 10⟩
        [DailyLogEntry.exercise "e1" "t" "run" 300,
         DailyLogEntry.meal "m1" "t" [⟨"apple", 95, 0, 0, 0, 0⟩, ⟨"egg", 155, 13, 1, 11, 1⟩]] =
      [DailyLogEntry.exercise "e1" "t" "run" 300,
       DailyLogEntry.meal "m1" "t" [⟨"pear", 101, 1, 27, 0, 10⟩, ⟨"egg", 155, 13, 1, 11, 1⟩]] ∧
    editNumericField none = 0 := by
  have h := C9_editMealItem [DailyLogEntry.exercise "e1" "t" "run" 300] [] "m1" "t"
    [⟨"apple", 95, 0, 0, 0, 0⟩, ⟨"egg", 155, 13, 1, 11, 1⟩] 0 ⟨"pear", 101, 1, 27, 0, 10⟩
    (by simp [entryIdOf]) (by simp)
  exact ⟨by simpa using h.1, h.2.2.2⟩

end NutriSnap
